import Mathlib

/-!
Shallow embedding of the behavioural telemetry capture hook
(src/hooks/use-proctoring.ts) of ProctorAI/risk-classifier.

The hook keeps React state (logs, throttledLogs, mousePositions, isFocused,
deviceInfo) and refs (lastMouseMoveTimeRef, lastResizeTimeRef,
inactivityTimerRef).  We model it as a record of those fields with every
state setter an explicit field update, reads seeing the current value.
Timestamps are integer milliseconds (JavaScript Date.now).  The floating
point distance and threshold comparison (distance < threshold, both obtained
through Math.sqrt of nonnegative quantities) is embedded by comparing the
exact squared quantities over the rationals, which is equivalent; theorems
relate the squared comparison back to the real square roots.
-/

namespace Proctoring

/-- A retained pointer sample, source: the mousePositions entries
{ x, y, timestamp } pushed by handleMouseMove. -/
structure PointerSample where
  x : Int
  y : Int
  timestamp : Int
deriving DecidableEq

/-- Source: the deviceInfo state set once by the mount effect. -/
structure DeviceInfo where
  screenWidth : Nat
  screenHeight : Nat
  windowWidth : Nat
  windowHeight : Nat
  deviceType : String
deriving DecidableEq

/-- The free-form data payload passed to logEvent, one constructor per call
site.  Copy and cut report a field named selection, paste a field named
length; both hold only the character count of the affected text.  The
mouse_analysis payload stores the exact squared distance (the code stores
Math.sqrt of it) together with the minimalMovement flag. -/
inductive EventPayload where
  | empty
  | mouseMove (x y : Int)
  | clipboardSelection (action : String) (selection : Nat)
  | clipboardPasteLen (action : String) (pastedLen : Nat)
  | windowResize (width height : Nat) (ratioValue : ℚ)
  | keyPress (keyType : String)
  | tabSwitch (status : String)
  | windowStateChange (state : String)
  | inactivity (duration : Nat)
  | mouseAnalysis (distanceSq : ℚ) (minimalMovement : Bool)
  | focusState (isFocused : Bool)
deriving DecidableEq

/-- Source: interface EventData.  logEvent fills type, data, timestamp and
the capture-time window_width / window_height; the optional device fields
stay absent until the flush enriches the record. -/
structure EventData where
  type : String
  data : EventPayload
  timestamp : Int
  deviceType : Option String := none
  screenWidth : Option Nat := none
  screenHeight : Option Nat := none
  windowWidth : Option Nat := none
  windowHeight : Option Nat := none
deriving DecidableEq

/-- The mutable state of the hook: React state plus refs. -/
structure HookState where
  logs : List EventData
  throttledLogs : List EventData
  mousePositions : List PointerSample
  isFocused : Bool
  lastMouseMoveTime : Int
  lastResizeTime : Int
  inactivityTimer : Option Int
  deviceInfo : Option DeviceInfo
deriving DecidableEq

/-- Initial hook state: empty logs and buffers, focused, refs at 0,
no pending timer, deviceInfo not yet computed. -/
def initState : HookState :=
  { logs := [], throttledLogs := [], mousePositions := [], isFocused := true,
    lastMouseMoveTime := 0, lastResizeTime := 0, inactivityTimer := none,
    deviceInfo := none }

def MOUSE_THROTTLE : Int := 500
def RESIZE_THROTTLE : Int := 500

/-- Source: logEvent.  Appends a record stamped with the current time and the
capture-time window dimensions. -/
def logEvent (s : HookState) (ty : String) (data : EventPayload)
    (now : Int) (innerW innerH : Nat) : HookState :=
  { s with logs := s.logs ++
      [{ type := ty, data := data, timestamp := now,
         windowWidth := some innerW, windowHeight := some innerH }] }

/-- Character-wise lowercasing, the embedding of toLowerCase on the user
agent string. -/
def lowerString (s : String) : String :=
  String.mk (s.data.map Char.toLower)

/-- Substring test: tok occurs inside ua.  This embeds the regex
/mobile|android|iphone|ipad|ipod/.test(...) used on the lowercased
user-agent, each alternative being a literal token. -/
def containsTok (ua tok : String) : Bool :=
  decide (tok.data <:+: ua.data)

def mobileTokens : List String := ["mobile", "android", "iphone", "ipad", "ipod"]

/-- Source: detectDeviceType.  Lowercase the user agent; if any mobile token
occurs, return tablet when ipad occurs and mobile otherwise; else desktop. -/
def detectDeviceType (userAgentRaw : String) : String :=
  let userAgent := lowerString userAgentRaw
  if mobileTokens.any (fun t => containsTok userAgent t) then
    if containsTok userAgent "ipad" then "tablet" else "mobile"
  else "desktop"

/-- Source: getNormalizedThreshold, embedded as the exact square of the
returned value: (0.005 * sqrt (w^2 + h^2))^2 = (w^2 + h^2) / 40000, and the
fallback 10 squares to 100. -/
def getNormalizedThresholdSq (deviceInfo : Option DeviceInfo) : ℚ :=
  match deviceInfo with
  | some d => ((d.screenWidth : ℚ) ^ 2 + (d.screenHeight : ℚ) ^ 2) / 40000
  | none => 100

/-- Squared Euclidean distance between two pointer samples; the code stores
Math.sqrt of this value. -/
def distanceSq (p q : PointerSample) : ℚ :=
  ((q.x - p.x : Int) : ℚ) ^ 2 + ((q.y - p.y : Int) : ℚ) ^ 2

/-- Source: the mount effect computing deviceInfo once from the screen and
window dimensions and the user agent. -/
def mountDeviceInfo (s : HookState) (screenW screenH innerW innerH : Nat)
    (userAgent : String) : HookState :=
  { s with deviceInfo := some ⟨screenW, screenH, innerW, innerH,
      detectDeviceType userAgent⟩ }

/-- Source: handleMouseMove.  Accept only when at least MOUSE_THROTTLE ms
elapsed since the last accepted move; an accepted move logs a mouse_move
record, pushes a pointer sample, updates the ref, and resets the single
inactivity timer to fire 3000 ms from now.  A rejected move does nothing. -/
def handleMouseMove (s : HookState) (now : Int) (x y : Int)
    (innerW innerH : Nat) : HookState :=
  if MOUSE_THROTTLE ≤ now - s.lastMouseMoveTime then
    let s1 := logEvent s "mouse_move" (.mouseMove x y) now innerW innerH
    { s1 with
      mousePositions := s1.mousePositions ++ [⟨x, y, now⟩],
      lastMouseMoveTime := now,
      inactivityTimer := some (now + 3000) }
  else s

/-- Source: handleCopy.  Logs only the length of the current selection
(0 when there is none). -/
def handleCopy (s : HookState) (now : Int) (sel : Option String)
    (innerW innerH : Nat) : HookState :=
  logEvent s "clipboard"
    (.clipboardSelection "copy" ((sel.map String.length).getD 0))
    now innerW innerH

/-- Source: handlePaste.  Logs only the length of the pasted text. -/
def handlePaste (s : HookState) (now : Int) (clip : Option String)
    (innerW innerH : Nat) : HookState :=
  logEvent s "clipboard"
    (.clipboardPasteLen "paste" ((clip.map String.length).getD 0))
    now innerW innerH

/-- Source: handleCut.  Logs only the length of the current selection. -/
def handleCut (s : HookState) (now : Int) (sel : Option String)
    (innerW innerH : Nat) : HookState :=
  logEvent s "clipboard"
    (.clipboardSelection "cut" ((sel.map String.length).getD 0))
    now innerW innerH

/-- Source: handleResize, throttled by its own ref and RESIZE_THROTTLE. -/
def handleResize (s : HookState) (now : Int) (innerW innerH screenW : Nat)
    : HookState :=
  if RESIZE_THROTTLE ≤ now - s.lastResizeTime then
    let s1 := logEvent s "window_resize"
      (.windowResize innerW innerH ((innerW : ℚ) / (screenW : ℚ)))
      now innerW innerH
    { s1 with lastResizeTime := now }
  else s

/-- Source: handleKeyDown.  Records only whether the key is a single
character (key_type = character) or the key name otherwise, then resets the
inactivity timer. -/
def handleKeyDown (s : HookState) (now : Int) (key : String)
    (innerW innerH : Nat) : HookState :=
  let keyType := if key.length = 1 then "character" else key
  let s1 := logEvent s "key_press" (.keyPress keyType) now innerW innerH
  { s1 with inactivityTimer := some (now + 3000) }

/-- Source: handleVisibilityChange, level-triggered on every notification. -/
def handleVisibilityChange (s : HookState) (now : Int) (hidden : Bool)
    (innerW innerH : Nat) : HookState :=
  logEvent s "tab_switch" (.tabSwitch (if hidden then "hidden" else "visible"))
    now innerW innerH

/-- Source: handleFocus, edge-triggered on the isFocused flag. -/
def handleFocus (s : HookState) (now : Int) (innerW innerH : Nat) : HookState :=
  if s.isFocused then s
  else logEvent { s with isFocused := true } "window_state_change"
    (.windowStateChange "focused") now innerW innerH

/-- Source: handleBlur, edge-triggered on the isFocused flag. -/
def handleBlur (s : HookState) (now : Int) (innerW innerH : Nat) : HookState :=
  if s.isFocused then
    logEvent { s with isFocused := false } "window_state_change"
      (.windowStateChange "blurred") now innerW innerH
  else s

/-- The setTimeout callback of the inactivity timer: fires the pending task,
logging one inactivity record with the hardcoded duration 3000 and leaving
no pending task. -/
def fireInactivityTimer (s : HookState) (now : Int) (innerW innerH : Nat)
    : HookState :=
  { logEvent s "inactivity" (.inactivity 3000) now innerW innerH with
    inactivityTimer := none }

/-- Retained samples inside the trailing window:
mousePositions.filter(pos.timestamp >= windowStart). -/
def recentPositions (positions : List PointerSample) (windowStart : Int)
    : List PointerSample :=
  positions.filter (fun p => windowStart ≤ p.timestamp)

/-- Source: second2Index / second2 of the tick.  The first retained sample
with timestamp at least windowStart + 2000, falling back to the earliest
retained sample when none exists. -/
def second2Sample (recent : List PointerSample) (windowStart : Int)
    : PointerSample :=
  match recent.find? (fun p => windowStart + 2000 ≤ p.timestamp) with
  | some p => p
  | none => recent.headD ⟨0, 0, 0⟩

/-- The mouse_analysis record the tick would log, when at least two samples
remain in the trailing window; none otherwise.  Mirrors lines 158 to 168 of
the tick body. -/
def analysisRecord (s : HookState) (now : Int) (innerW innerH : Nat)
    : Option EventData :=
  let windowStart := now - 5000
  let recent := recentPositions s.mousePositions windowStart
  if 2 ≤ recent.length then
    let second2 := second2Sample recent windowStart
    let second5 := recent.getLastD ⟨0, 0, 0⟩
    let dSq := distanceSq second2 second5
    some { type := "mouse_analysis",
           data := .mouseAnalysis dSq
             (decide (dSq < getNormalizedThresholdSq s.deviceInfo)),
           timestamp := now,
           windowWidth := some innerW, windowHeight := some innerH }
  else none

/-- The focus_state record the tick logs. -/
def focusRecord (s : HookState) (now : Int) (innerW innerH : Nat) : EventData :=
  { type := "focus_state", data := .focusState s.isFocused, timestamp := now,
    windowWidth := some innerW, windowHeight := some innerH }

/-- Flush-time enrichment: the object spread attaching
deviceInfo?.deviceType and the four dimension fields, overwriting the
capture-time window dimensions. -/
def enrich (d : Option DeviceInfo) (e : EventData) : EventData :=
  { e with
    deviceType := d.map DeviceInfo.deviceType,
    screenWidth := d.map DeviceInfo.screenWidth,
    screenHeight := d.map DeviceInfo.screenHeight,
    windowWidth := d.map DeviceInfo.windowWidth,
    windowHeight := d.map DeviceInfo.windowHeight }

/-- Source: the setInterval tick (every 5000 ms).  When the pending log is
non-empty: optionally log the mouse_analysis record, log a focus_state
record, publish the enriched snapshot of the pending log as the new
throttledLogs, clear the pending log, and prune the position buffer to the
trailing window.  When the pending log is empty, nothing happens. -/
def tick (s : HookState) (now : Int) (innerW innerH : Nat) : HookState :=
  if s.logs = [] then s
  else
    let s1 :=
      match analysisRecord s now innerW innerH with
      | some r => { s with logs := s.logs ++ [r] }
      | none => s
    let s2 := logEvent s1 "focus_state" (.focusState s1.isFocused)
      now innerW innerH
    { s2 with
      throttledLogs := s2.logs.map (enrich s2.deviceInfo),
      logs := [],
      mousePositions :=
        s2.mousePositions.filter (fun p => now - 5000 ≤ p.timestamp) }

/-- The records a tick at time now appends to the pending log before taking
the snapshot: nothing when the pending log is empty, otherwise the optional
mouse_analysis record followed by the focus_state record. -/
def tickEmissions (s : HookState) (now : Int) (innerW innerH : Nat)
    : List EventData :=
  if s.logs = [] then []
  else (analysisRecord s now innerW innerH).toList ++
    [focusRecord s now innerW innerH]

/-- One notification delivered to the hook: a listener callback, the
inactivity setTimeout callback, or the setInterval tick.  Each carries the
wall-clock time at which it runs and the viewport dimensions it would read. -/
inductive Input where
  | mouseMove (now : Int) (x y : Int) (innerW innerH : Nat)
  | keyDown (now : Int) (key : String) (innerW innerH : Nat)
  | copyEvt (now : Int) (sel : Option String) (innerW innerH : Nat)
  | pasteEvt (now : Int) (clip : Option String) (innerW innerH : Nat)
  | cutEvt (now : Int) (sel : Option String) (innerW innerH : Nat)
  | resizeEvt (now : Int) (innerW innerH screenW : Nat)
  | visibilityEvt (now : Int) (hidden : Bool) (innerW innerH : Nat)
  | focusEvt (now : Int) (innerW innerH : Nat)
  | blurEvt (now : Int) (innerW innerH : Nat)
  | timerFire (now : Int) (innerW innerH : Nat)
  | tickEvt (now : Int) (innerW innerH : Nat)
  | mountEvt (now : Int) (screenW screenH innerW innerH : Nat) (ua : String)

/-- The wall-clock time an input runs at. -/
def Input.time : Input → Int
  | .mouseMove now _ _ _ _ => now
  | .keyDown now _ _ _ => now
  | .copyEvt now _ _ _ => now
  | .pasteEvt now _ _ _ => now
  | .cutEvt now _ _ _ => now
  | .resizeEvt now _ _ _ => now
  | .visibilityEvt now _ _ _ => now
  | .focusEvt now _ _ => now
  | .blurEvt now _ _ => now
  | .timerFire now _ _ => now
  | .tickEvt now _ _ => now
  | .mountEvt now _ _ _ _ _ => now

/-- Dispatch one input to the matching handler. -/
def step (s : HookState) : Input → HookState
  | .mouseMove now x y iw ih => handleMouseMove s now x y iw ih
  | .keyDown now k iw ih => handleKeyDown s now k iw ih
  | .copyEvt now sel iw ih => handleCopy s now sel iw ih
  | .pasteEvt now clip iw ih => handlePaste s now clip iw ih
  | .cutEvt now sel iw ih => handleCut s now sel iw ih
  | .resizeEvt now iw ih sw => handleResize s now iw ih sw
  | .visibilityEvt now hidden iw ih => handleVisibilityChange s now hidden iw ih
  | .focusEvt now iw ih => handleFocus s now iw ih
  | .blurEvt now iw ih => handleBlur s now iw ih
  | .timerFire now iw ih => fireInactivityTimer s now iw ih
  | .tickEvt now iw ih => tick s now iw ih
  | .mountEvt _ sw sh iw ih ua => mountDeviceInfo s sw sh iw ih ua

/-- Hook state together with the history of the control loop: the time of
the last tick and the time of the last processed input. -/
structure GState where
  s : HookState
  lastTick : Int
  clock : Int

/-- Initial ghost state: session starts at time 0 with no tick yet. -/
def ginit : GState := { s := initState, lastTick := 0, clock := 0 }

/-- One ghost step: run the input and advance the clocks. -/
def gstep (g : GState) (i : Input) : GState :=
  match i with
  | .tickEvt now _ _ => { s := step g.s i, lastTick := now, clock := now }
  | _ => { s := step g.s i, lastTick := g.lastTick, clock := i.time }

/-- An input is well-timed: it runs no earlier than the last processed input,
and a tick of the 5000 ms interval runs at least 5000 ms after the previous
tick (or after session start for the first one). -/
def validInput (g : GState) (i : Input) : Bool :=
  decide (g.clock ≤ i.time) &&
    (match i with
     | .tickEvt now _ _ => decide (g.lastTick + 5000 ≤ now)
     | _ => true)

/-- A well-timed input sequence from a ghost state. -/
def validSeq : GState → List Input → Bool
  | _, [] => true
  | g, i :: is => validInput g i && validSeq (gstep g i) is

/-- Run a whole input sequence. -/
def grun (g : GState) (is : List Input) : GState := is.foldl gstep g

/-- One pointer-move notification for the throttle analysis. -/
structure MoveNotif where
  now : Int
  x : Int
  y : Int
  innerW : Nat
  innerH : Nat

/-- Feed a sequence of pointer-move notifications to handleMouseMove. -/
def runMoves (s : HookState) (ms : List MoveNotif) : HookState :=
  ms.foldl (fun s m => handleMouseMove s m.now m.x m.y m.innerW m.innerH) s

/-- Timestamps of the accepted mouse_move records in the pending log. -/
def mouseMoveTimes (s : HookState) : List Int :=
  (s.logs.filter (fun e => e.type == "mouse_move")).map EventData.timestamp

/-! ### Characterisation of the tick -/

/-- A tick with an empty pending log does nothing. -/
theorem tick_empty (s : HookState) (now : Int) (iw ih : Nat)
    (h : s.logs = []) : tick s now iw ih = s := by
  simp [tick, h]

/-- A tick with a non-empty pending log publishes the enriched snapshot of
the pending log together with the records the tick itself emitted, clears
the pending log, prunes the position buffer to the trailing window, and
changes nothing else. -/
theorem tick_eq (s : HookState) (now : Int) (iw ih : Nat)
    (h : s.logs ≠ []) :
    tick s now iw ih =
      { s with
        throttledLogs :=
          (s.logs ++ tickEmissions s now iw ih).map (enrich s.deviceInfo),
        logs := [],
        mousePositions :=
          s.mousePositions.filter (fun p => now - 5000 ≤ p.timestamp) } := by
  cases hA : analysisRecord s now iw ih with
  | none => simp [tick, tickEmissions, logEvent, h, hA, focusRecord]
  | some r => simp [tick, tickEmissions, logEvent, h, hA, focusRecord]

/-! ### C6: edge-triggered window focus -/

/-- C6: window focus tracking is edge-triggered.  A blur while blurred and a
focus while focused are identities (repeated same-state notifications are
idempotent); a blur while focused flips the flag and logs exactly one
window_state_change record, symmetrically for focus; and a blur followed by
a second blur with no intervening focus adds exactly one
window_state_change record to the log. -/
theorem C6_focus_edge_triggered (s : HookState) (t1 t2 : Int)
    (iw ih iw2 ih2 : Nat) :
    (s.isFocused = false → handleBlur s t1 iw ih = s) ∧
    (s.isFocused = true → handleFocus s t1 iw ih = s) ∧
    (s.isFocused = true →
      (handleBlur s t1 iw ih).logs = s.logs ++
        [{ type := "window_state_change",
           data := .windowStateChange "blurred", timestamp := t1,
           windowWidth := some iw, windowHeight := some ih }] ∧
      (handleBlur s t1 iw ih).isFocused = false) ∧
    (s.isFocused = false →
      (handleFocus s t1 iw ih).logs = s.logs ++
        [{ type := "window_state_change",
           data := .windowStateChange "focused", timestamp := t1,
           windowWidth := some iw, windowHeight := some ih }] ∧
      (handleFocus s t1 iw ih).isFocused = true) ∧
    (s.isFocused = true →
      ((handleBlur (handleBlur s t1 iw ih) t2 iw2 ih2).logs.filter
          (fun e => e.type == "window_state_change")).length =
        (s.logs.filter (fun e => e.type == "window_state_change")).length
          + 1) := by
  refine ⟨fun h => ?_, fun h => ?_, fun h => ?_, fun h => ?_, fun h => ?_⟩
  · simp [handleBlur, h]
  · simp [handleFocus, h]
  · simp [handleBlur, h, logEvent]
  · simp [handleFocus, h, logEvent]
  · simp [handleBlur, h, logEvent, List.filter_append]

/-- Witness for C6 at a concrete focused state: two consecutive blurs
starting from the initial state log exactly one window_state_change
record. -/
theorem C6_focus_edge_triggered_witness :
    ((handleBlur (handleBlur initState 10 8 6) 20 8 6).logs.filter
        (fun e => e.type == "window_state_change")).length =
      (initState.logs.filter
        (fun e => e.type == "window_state_change")).length + 1 :=
  (C6_focus_edge_triggered initState 10 20 8 6 8 6).2.2.2.2 (by decide)

/-! ### C7: clipboard records carry only lengths -/

/-- C7: every copy, cut or paste notification logs a clipboard record
holding only the action name and the character count of the affected text.
Two notifications that agree on the length of the text produce identical
states whatever the text was, and copying a 50 character selection logs the
record with action copy and selection 50. -/
theorem C7_clipboard_privacy (s : HookState) (now : Int) (iw ih : Nat)
    (t1 t2 : String) :
    (∀ t : String, (handleCopy s now (some t) iw ih).logs = s.logs ++
      [{ type := "clipboard",
         data := .clipboardSelection "copy" t.length, timestamp := now,
         windowWidth := some iw, windowHeight := some ih }]) ∧
    (∀ t : String, (handleCut s now (some t) iw ih).logs = s.logs ++
      [{ type := "clipboard",
         data := .clipboardSelection "cut" t.length, timestamp := now,
         windowWidth := some iw, windowHeight := some ih }]) ∧
    (∀ t : String, (handlePaste s now (some t) iw ih).logs = s.logs ++
      [{ type := "clipboard",
         data := .clipboardPasteLen "paste" t.length, timestamp := now,
         windowWidth := some iw, windowHeight := some ih }]) ∧
    (t1.length = t2.length →
      handleCopy s now (some t1) iw ih = handleCopy s now (some t2) iw ih ∧
      handleCut s now (some t1) iw ih = handleCut s now (some t2) iw ih ∧
      handlePaste s now (some t1) iw ih =
        handlePaste s now (some t2) iw ih) ∧
    (∀ t : String, t.length = 50 →
      (handleCopy s now (some t) iw ih).logs = s.logs ++
        [{ type := "clipboard",
           data := .clipboardSelection "copy" 50, timestamp := now,
           windowWidth := some iw, windowHeight := some ih }]) := by
  refine ⟨fun t => rfl, fun t => rfl, fun t => rfl, fun h => ?_,
    fun t h => ?_⟩
  · exact ⟨by simp [handleCopy, logEvent, h],
      by simp [handleCut, logEvent, h],
      by simp [handlePaste, logEvent, h]⟩
  · simp [handleCopy, logEvent, h]

/-- Witness for C7: copying a concrete 50 character selection logs the
record with action copy and selection 50, independently of the text. -/
theorem C7_clipboard_privacy_witness :
    (handleCopy initState 100 (some (String.mk (List.replicate 50 'a')))
        8 6).logs = initState.logs ++
      [{ type := "clipboard", data := .clipboardSelection "copy" 50,
         timestamp := 100, windowWidth := some 8,
         windowHeight := some 6 }] :=
  (C7_clipboard_privacy initState 100 8 6 "" "").2.2.2.2
    (String.mk (List.replicate 50 'a')) (by decide)

/-! ### C8: device classification by user-agent substring match -/

/-- The user agent, lowercased, contains one of the mobile or tablet
tokens of the detection regex. -/
def uaMatchesMobile (ua : String) : Bool :=
  mobileTokens.any (fun t => containsTok (lowerString ua) t)

/-- The user agent, lowercased, contains the tablet-specific token ipad. -/
def uaMatchesIpad (ua : String) : Bool :=
  containsTok (lowerString ua) "ipad"

/-- C8: device classification is a substring match of the lowercased user
agent against the mobile and tablet tokens: tablet when the tablet-specific
token ipad also occurs, mobile when some mobile token occurs but ipad does
not, desktop when no token occurs. -/
theorem C8_device_classification (ua : String) :
    (uaMatchesMobile ua = true → uaMatchesIpad ua = true →
      detectDeviceType ua = "tablet") ∧
    (uaMatchesMobile ua = true → uaMatchesIpad ua = false →
      detectDeviceType ua = "mobile") ∧
    (uaMatchesMobile ua = false → detectDeviceType ua = "desktop") := by
  refine ⟨fun hm hi => ?_, fun hm hi => ?_, fun hm => ?_⟩
  · simp only [uaMatchesMobile] at hm
    simp only [uaMatchesIpad] at hi
    simp [detectDeviceType, hm, hi]
  · simp only [uaMatchesMobile] at hm
    simp only [uaMatchesIpad] at hi
    simp [detectDeviceType, hm, hi]
  · simp only [uaMatchesMobile] at hm
    simp [detectDeviceType, hm]

/-- Witness for C8 on three concrete user agents, one per class. -/
theorem C8_device_classification_witness :
    detectDeviceType "Mozilla/5.0 (iPad; CPU OS)" = "tablet" ∧
    detectDeviceType "Mozilla/5.0 (Linux; Android 10)" = "mobile" ∧
    detectDeviceType "Mozilla/5.0 (Windows NT 10.0)" = "desktop" :=
  ⟨(C8_device_classification "Mozilla/5.0 (iPad; CPU OS)").1
      (by decide) (by decide),
   (C8_device_classification "Mozilla/5.0 (Linux; Android 10)").2.1
      (by decide) (by decide),
   (C8_device_classification "Mozilla/5.0 (Windows NT 10.0)").2.2
      (by decide)⟩

/-! ### C9: key presses log only a coarse key type -/

/-- C9: the key_press record carries key_type character when the key string
has length one and the literal key name otherwise, so two runs differing
only in which single character was typed produce identical states. -/
theorem C9_key_press_privacy (s : HookState) (now : Int) (iw ih : Nat)
    (k k1 k2 : String) :
    (k.length = 1 → (handleKeyDown s now k iw ih).logs = s.logs ++
      [{ type := "key_press", data := .keyPress "character",
         timestamp := now, windowWidth := some iw,
         windowHeight := some ih }]) ∧
    (k.length ≠ 1 → (handleKeyDown s now k iw ih).logs = s.logs ++
      [{ type := "key_press", data := .keyPress k, timestamp := now,
         windowWidth := some iw, windowHeight := some ih }]) ∧
    (k1.length = 1 → k2.length = 1 →
      handleKeyDown s now k1 iw ih = handleKeyDown s now k2 iw ih) := by
  refine ⟨fun h => ?_, fun h => ?_, fun h1 h2 => ?_⟩
  · simp [handleKeyDown, logEvent, h]
  · simp [handleKeyDown, logEvent, h]
  · simp [handleKeyDown, logEvent, h1, h2]

/-- Witness for C9: typing the single characters a and b from the initial
state produces identical states. -/
theorem C9_key_press_privacy_witness :
    handleKeyDown initState 100 "a" 8 6 = handleKeyDown initState 100 "b" 8 6 :=
  (C9_key_press_privacy initState 100 8 6 "" "a" "b").2.2
    (by decide) (by decide)

/-! ### C4: per-class throttle gate -/

/-- Invariant of the pointer-move throttle: the accepted mouse_move records
carry timestamps at least 500 ms apart, all bounded by the ref holding the
last accepted time. -/
def ThrottleInv (s : HookState) : Prop :=
  (mouseMoveTimes s).Pairwise (fun a b => a + 500 ≤ b) ∧
  ∀ a ∈ mouseMoveTimes s, a ≤ s.lastMouseMoveTime

theorem mouseMoveTimes_accept (s : HookState) (now x y : Int) (iw ih : Nat)
    (hc : MOUSE_THROTTLE ≤ now - s.lastMouseMoveTime) :
    mouseMoveTimes (handleMouseMove s now x y iw ih) =
      mouseMoveTimes s ++ [now] := by
  simp [handleMouseMove, hc, logEvent, mouseMoveTimes, List.filter_append]

theorem throttleInv_step (s : HookState) (m : MoveNotif)
    (h : ThrottleInv s) :
    ThrottleInv (handleMouseMove s m.now m.x m.y m.innerW m.innerH) := by
  obtain ⟨hpw, hle⟩ := h
  by_cases hc : MOUSE_THROTTLE ≤ m.now - s.lastMouseMoveTime
  · have h500 : MOUSE_THROTTLE = 500 := rfl
    constructor
    · rw [mouseMoveTimes_accept s m.now m.x m.y m.innerW m.innerH hc]
      rw [List.pairwise_append]
      refine ⟨hpw, List.pairwise_singleton _ _, ?_⟩
      intro a ha b hb
      have hb' : b = m.now := List.mem_singleton.mp hb
      have := hle a ha
      omega
    · rw [mouseMoveTimes_accept s m.now m.x m.y m.innerW m.innerH hc]
      have hlast : (handleMouseMove s m.now m.x m.y m.innerW
          m.innerH).lastMouseMoveTime = m.now := by
        simp [handleMouseMove, hc, logEvent]
      rw [hlast]
      intro a ha
      rcases List.mem_append.mp ha with ha | ha
      · have := hle a ha
        omega
      · have : a = m.now := List.mem_singleton.mp ha
        omega
  · simpa [handleMouseMove, hc] using ⟨hpw, hle⟩

theorem throttleInv_runMoves (ms : List MoveNotif) (s : HookState)
    (h : ThrottleInv s) : ThrottleInv (runMoves s ms) := by
  induction ms generalizing s with
  | nil => exact h
  | cons m ms ih => exact ih _ (throttleInv_step s m h)

/-- C4: the throttle gate.  A pointer-move notification arriving less than
500 ms after the last accepted one leaves the state entirely unchanged
(dropped outright, not queued, not coalesced); one arriving at or past the
threshold is accepted, logging exactly one mouse_move record and moving the
last-accepted ref to its time.  The resize class is throttled independently
by its own ref with its own 500 ms threshold: neither handler touches the
other ref.  Consequently, over any sequence of pointer-move notifications,
the accepted mouse_move records are pairwise at least 500 ms apart, so at
most one is accepted per 500 ms window and it is the first notification of
that window. -/
theorem C4_throttle_gate (s : HookState) (now x y : Int)
    (iw ih sw : Nat) :
    (now - s.lastMouseMoveTime < MOUSE_THROTTLE →
      handleMouseMove s now x y iw ih = s) ∧
    (MOUSE_THROTTLE ≤ now - s.lastMouseMoveTime →
      (handleMouseMove s now x y iw ih).logs = s.logs ++
        [{ type := "mouse_move", data := .mouseMove x y, timestamp := now,
           windowWidth := some iw, windowHeight := some ih }] ∧
      (handleMouseMove s now x y iw ih).lastMouseMoveTime = now) ∧
    (now - s.lastResizeTime < RESIZE_THROTTLE →
      handleResize s now iw ih sw = s) ∧
    (RESIZE_THROTTLE ≤ now - s.lastResizeTime →
      (handleResize s now iw ih sw).logs = s.logs ++
        [{ type := "window_resize",
           data := .windowResize iw ih ((iw : ℚ) / (sw : ℚ)),
           timestamp := now,
           windowWidth := some iw, windowHeight := some ih }] ∧
      (handleResize s now iw ih sw).lastResizeTime = now) ∧
    ((handleMouseMove s now x y iw ih).lastResizeTime =
      s.lastResizeTime) ∧
    ((handleResize s now iw ih sw).lastMouseMoveTime =
      s.lastMouseMoveTime) ∧
    (∀ ms : List MoveNotif,
      (mouseMoveTimes (runMoves initState ms)).Pairwise
        (fun a b => a + 500 ≤ b)) := by
  refine ⟨fun h => ?_, fun h => ?_, fun h => ?_, fun h => ?_, ?_, ?_,
    fun ms => ?_⟩
  · simp [handleMouseMove, not_le.mpr h]
  · exact ⟨by simp [handleMouseMove, h, logEvent],
      by simp [handleMouseMove, h, logEvent]⟩
  · simp [handleResize, not_le.mpr h]
  · exact ⟨by simp [handleResize, h, logEvent],
      by simp [handleResize, h, logEvent]⟩
  · by_cases hc : MOUSE_THROTTLE ≤ now - s.lastMouseMoveTime <;>
      simp [handleMouseMove, hc, logEvent]
  · by_cases hc : RESIZE_THROTTLE ≤ now - s.lastResizeTime <;>
      simp [handleResize, hc, logEvent]
  · exact (throttleInv_runMoves ms initState
      (by simp [ThrottleInv, mouseMoveTimes, initState])).1

/-- Witness for C4: a notification 200 ms after an accepted one is dropped
with no state change, and a concrete fast sequence keeps its accepted
records 500 ms apart. -/
theorem C4_throttle_gate_witness :
    handleMouseMove (handleMouseMove initState 1000 0 0 8 6) 1200 5 5 8 6 =
      handleMouseMove initState 1000 0 0 8 6 ∧
    (mouseMoveTimes (runMoves initState
        [⟨1000, 0, 0, 8, 6⟩, ⟨1200, 1, 1, 8, 6⟩,
         ⟨1600, 2, 2, 8, 6⟩])).Pairwise (fun a b => a + 500 ≤ b) :=
  ⟨(C4_throttle_gate (handleMouseMove initState 1000 0 0 8 6)
      1200 5 5 8 6 8).1 (by decide),
   (C4_throttle_gate initState 0 0 0 8 6 8).2.2.2.2.2.2
      [⟨1000, 0, 0, 8, 6⟩, ⟨1200, 1, 1, 8, 6⟩, ⟨1600, 2, 2, 8, 6⟩]⟩

/-! ### C5: inactivity watchdog -/

/-- C5: the inactivity watchdog.  Every accepted pointer move and every key
press overwrites the single timer slot with a task due 3000 ms later —
whatever task was pending is thereby cancelled and can no longer fire, and
at most one task is ever pending since the slot holds at most one deadline.
When the pending task fires uncancelled it logs exactly one inactivity
record carrying duration 3000 and empties the slot. -/
theorem C5_inactivity_watchdog (s : HookState) (now x y : Int)
    (k : String) (iw ih : Nat) :
    (MOUSE_THROTTLE ≤ now - s.lastMouseMoveTime →
      (handleMouseMove s now x y iw ih).inactivityTimer =
        some (now + 3000)) ∧
    ((handleKeyDown s now k iw ih).inactivityTimer = some (now + 3000)) ∧
    ((fireInactivityTimer s now iw ih).logs = s.logs ++
      [{ type := "inactivity", data := .inactivity 3000, timestamp := now,
         windowWidth := some iw, windowHeight := some ih }]) ∧
    ((fireInactivityTimer s now iw ih).inactivityTimer = none) := by
  refine ⟨fun h => ?_, ?_, ?_, ?_⟩
  · simp [handleMouseMove, h, logEvent]
  · simp [handleKeyDown, logEvent]
  · simp [fireInactivityTimer, logEvent]
  · simp [fireInactivityTimer, logEvent]

/-- Witness for C5: an accepted pointer move at time 1000 leaves one
pending task due at 4000. -/
theorem C5_inactivity_watchdog_witness :
    (handleMouseMove initState 1000 0 0 8 6).inactivityTimer = some 4000 :=
  (C5_inactivity_watchdog initState 1000 0 0 "" 8 6).1 (by decide)

/-! ### C1: batch assembly on the tick -/

/-- The mouse_analysis record, when produced, has type mouse_analysis. -/
theorem analysisRecord_type (s : HookState) (now : Int) (iw ih : Nat)
    (r : EventData) (h : analysisRecord s now iw ih = some r) :
    r.type = "mouse_analysis" := by
  by_cases h2 : 2 ≤ (recentPositions s.mousePositions (now - 5000)).length
  · simp only [analysisRecord, if_pos h2, Option.some.injEq] at h
    subst h
    rfl
  · simp only [analysisRecord, if_neg h2] at h
    exact Option.noConfusion h

/-- C1: on a tick with a non-empty pending log, the published batch is
exactly the enriched pending log extended with the records the tick itself
emitted; the tick emits exactly one focus_state record, carrying the current
focus flag; the pending log is cleared; and every published record carries
the assembly-time DeviceInfo fields, never capture-time ones.  Together the
first two conjuncts give the no-loss, no-double-count property: the batch is
built from the full pending snapshot and the log is reset to empty in the
same step. -/
theorem C1_batch_assembly (s : HookState) (now : Int) (iw ih : Nat)
    (h : s.logs ≠ []) :
    (tick s now iw ih).throttledLogs =
      (s.logs ++ tickEmissions s now iw ih).map (enrich s.deviceInfo) ∧
    (tick s now iw ih).logs = [] ∧
    (tickEmissions s now iw ih).filter
      (fun e => e.type == "focus_state") = [focusRecord s now iw ih] ∧
    (focusRecord s now iw ih).data = .focusState s.isFocused ∧
    ∀ r ∈ (tick s now iw ih).throttledLogs,
      r.deviceType = s.deviceInfo.map DeviceInfo.deviceType ∧
      r.screenWidth = s.deviceInfo.map DeviceInfo.screenWidth ∧
      r.screenHeight = s.deviceInfo.map DeviceInfo.screenHeight ∧
      r.windowWidth = s.deviceInfo.map DeviceInfo.windowWidth ∧
      r.windowHeight = s.deviceInfo.map DeviceInfo.windowHeight := by
  have ht := tick_eq s now iw ih h
  refine ⟨by rw [ht], by rw [ht], ?_, rfl, ?_⟩
  · unfold tickEmissions
    rw [if_neg h]
    cases hA : analysisRecord s now iw ih with
    | none => simp [focusRecord]
    | some r =>
        have hr := analysisRecord_type s now iw ih r hA
        simp [focusRecord, hr]
  · rw [ht]
    intro r hr
    obtain ⟨e, _, rfl⟩ := List.mem_map.mp hr
    exact ⟨rfl, rfl, rfl, rfl, rfl⟩

/-- Witness for C1: a tick over a pending log with one key_press record
publishes that record and the focus_state record, both enriched, and clears
the log. -/
theorem C1_batch_assembly_witness :
    (tick (handleKeyDown initState 100 "a" 8 6) 5000 8 6).throttledLogs =
      ((handleKeyDown initState 100 "a" 8 6).logs ++
        tickEmissions (handleKeyDown initState 100 "a" 8 6) 5000 8 6).map
        (enrich (handleKeyDown initState 100 "a" 8 6).deviceInfo) ∧
    (tick (handleKeyDown initState 100 "a" 8 6) 5000 8 6).logs = [] :=
  ⟨(C1_batch_assembly (handleKeyDown initState 100 "a" 8 6) 5000 8 6
      (by decide)).1,
   (C1_batch_assembly (handleKeyDown initState 100 "a" 8 6) 5000 8 6
      (by decide)).2.1⟩

/-! ### C3: pruning of the position buffer (corrected) -/

/-- Counterexample to C3 as stated: in a well-timed run — one accepted
pointer move at 1000, a tick at 5000 (pending log non-empty, so it
publishes and prunes), then a tick at 10000 with an empty pending log —
the second tick completes while the sample from time 1000, older than the
trailing 5000 ms window, is still retained, because the prune is guarded by
the non-empty-log check. -/
theorem C3_prune_counterexample :
    validSeq ginit
      [Input.mouseMove 1000 0 0 8 6, Input.tickEvt 5000 8 6,
       Input.tickEvt 10000 8 6] = true ∧
    ∃ p ∈ (grun ginit
      [Input.mouseMove 1000 0 0 8 6, Input.tickEvt 5000 8 6,
       Input.tickEvt 10000 8 6]).s.mousePositions,
      p.timestamp < 10000 - 5000 := by
  decide

/-- C3 amended: after a tick at which the pending log was non-empty, no
retained pointer sample is older than the trailing 5000 ms window.  A tick
with an empty pending log performs no pruning at all, so stale samples can
survive it (see the counterexample). -/
theorem C3_prune_after_nonempty_tick (s : HookState) (now : Int)
    (iw ih : Nat) (h : s.logs ≠ []) :
    ((tick s now iw ih).mousePositions.all
      (fun p => decide (now - 5000 ≤ p.timestamp))) = true := by
  rw [tick_eq s now iw ih h]
  simp only [List.all_eq_true, decide_eq_true_eq]
  intro p hp
  simpa using (List.mem_filter.mp hp).2

/-- Witness for the amended C3: after the tick at 5000 over the state
holding the accepted move from time 1000, every retained sample lies in the
trailing window. -/
theorem C3_prune_after_nonempty_tick_witness :
    (List.all
      (tick (handleMouseMove initState 1000 0 0 8 6) 5000 8 6).mousePositions
      (fun p => decide ((5000 : Int) - 5000 ≤ p.timestamp))) = true :=
  C3_prune_after_nonempty_tick (handleMouseMove initState 1000 0 0 8 6)
    5000 8 6 (by decide)

/-! ### C10: capture-time window dimensions are discarded at flush -/

/-- C10: logEvent records the capture-time viewport dimensions on the
event, and flush-time enrichment overwrites the window_width and
window_height fields with the session DeviceInfo values while leaving type,
data and timestamp untouched; hence every published record carries the
DeviceInfo dimensions, and the published batch agrees with the pending
snapshot on type, data and timestamp. -/
theorem C10_flush_enrichment (s : HookState) (d : DeviceInfo)
    (e : EventData) (ty : String) (p : EventPayload) (now : Int)
    (iw ih : Nat) (hd : s.deviceInfo = some d) (h : s.logs ≠ []) :
    ((logEvent s ty p now iw ih).logs = s.logs ++
      [{ type := ty, data := p, timestamp := now,
         windowWidth := some iw, windowHeight := some ih }]) ∧
    ((enrich (some d) e).windowWidth = some d.windowWidth ∧
     (enrich (some d) e).windowHeight = some d.windowHeight ∧
     (enrich (some d) e).type = e.type ∧
     (enrich (some d) e).data = e.data ∧
     (enrich (some d) e).timestamp = e.timestamp) ∧
    (∀ r ∈ (tick s now iw ih).throttledLogs,
      r.windowWidth = some d.windowWidth ∧
      r.windowHeight = some d.windowHeight) ∧
    ((tick s now iw ih).throttledLogs.map
        (fun r => (r.type, r.data, r.timestamp)) =
      (s.logs ++ tickEmissions s now iw ih).map
        (fun r => (r.type, r.data, r.timestamp))) := by
  refine ⟨rfl, ⟨rfl, rfl, rfl, rfl, rfl⟩, ?_, ?_⟩
  · rw [tick_eq s now iw ih h, hd]
    intro r hr
    obtain ⟨e', _, rfl⟩ := List.mem_map.mp hr
    exact ⟨rfl, rfl⟩
  · rw [tick_eq s now iw ih h]
    show ((s.logs ++ tickEmissions s now iw ih).map
        (enrich s.deviceInfo)).map (fun r => (r.type, r.data, r.timestamp)) =
      (s.logs ++ tickEmissions s now iw ih).map
        (fun r => (r.type, r.data, r.timestamp))
    rw [List.map_map]
    exact List.map_congr_left fun a _ => rfl

/-- Witness for C10 over a mounted session with one pending key_press
record: the batch published at 5000 agrees with the pending snapshot on
type, data and timestamp. -/
theorem C10_flush_enrichment_witness :
    (tick (mountDeviceInfo (handleKeyDown initState 100 "a" 8 6)
        1000 800 640 480 "Mozilla") 5000 8 6).throttledLogs.map
      (fun r => (r.type, r.data, r.timestamp)) =
    ((mountDeviceInfo (handleKeyDown initState 100 "a" 8 6)
        1000 800 640 480 "Mozilla").logs ++
      tickEmissions (mountDeviceInfo (handleKeyDown initState 100 "a" 8 6)
        1000 800 640 480 "Mozilla") 5000 8 6).map
      (fun r => (r.type, r.data, r.timestamp)) :=
  (C10_flush_enrichment
    (mountDeviceInfo (handleKeyDown initState 100 "a" 8 6)
      1000 800 640 480 "Mozilla")
    ⟨1000, 800, 640, 480, "desktop"⟩
    { type := "", data := .empty, timestamp := 0 } "" .empty 5000 8 6
    (by decide) (by decide)).2.2.2

/-! ### C2: the window analyzer over well-timed runs -/

/-- Invariant of well-timed runs of the control loop.  Pointer samples are
bounded by the last-accepted ref and strictly sorted in time (the throttle
separates accepted samples by 500 ms); every sample newer than the last
tick has its mouse_move record still pending; the refs never run ahead of
the clock; and listener records never carry the analyzer-only
mouse_analysis type. -/
structure Inv (g : GState) : Prop where
  posLeLast : ∀ p ∈ g.s.mousePositions, p.timestamp ≤ g.s.lastMouseMoveTime
  posSorted : g.s.mousePositions.Pairwise (fun p q => p.timestamp < q.timestamp)
  posOldOrPending :
    (∀ p ∈ g.s.mousePositions, p.timestamp ≤ g.lastTick) ∨ g.s.logs ≠ []
  lastLeClock : g.s.lastMouseMoveTime ≤ g.clock
  tickLeClock : g.lastTick ≤ g.clock
  noAnalysisPending : ∀ e ∈ g.s.logs, e.type ≠ "mouse_analysis"

theorem Inv.init : Inv ginit := by
  refine ⟨?_, ?_, Or.inl ?_, le_refl 0, le_refl 0, ?_⟩
  · intro p hp
    exact absurd hp (List.not_mem_nil p)
  · exact List.Pairwise.nil
  · intro p hp
    exact absurd hp (List.not_mem_nil p)
  · intro e he
    exact absurd he (List.not_mem_nil e)

/-- Steps that leave the position buffer and the pointer ref unchanged and
at most append one non-analysis record preserve the invariant. -/
theorem inv_append (g : GState) (t' : Int) (s' : HookState)
    (hpos : s'.mousePositions = g.s.mousePositions)
    (hlmm : s'.lastMouseMoveTime = g.s.lastMouseMoveTime)
    (hlogs : s'.logs = g.s.logs ∨
      ∃ e, s'.logs = g.s.logs ++ [e] ∧ e.type ≠ "mouse_analysis")
    (hc : g.clock ≤ t') (h : Inv g) : Inv ⟨s', g.lastTick, t'⟩ := by
  refine ⟨?_, ?_, ?_, ?_, ?_, ?_⟩
  · intro p hp
    rw [hpos] at hp
    rw [hlmm]
    exact h.posLeLast p hp
  · rw [hpos]
    exact h.posSorted
  · rcases hlogs with hl | ⟨e, hl, _⟩
    · rcases h.posOldOrPending with h3 | h3
      · exact Or.inl fun p hp => h3 p (hpos ▸ hp)
      · exact Or.inr (hl ▸ h3)
    · refine Or.inr ?_
      rw [hl]
      simp
  · rw [hlmm]
    exact le_trans h.lastLeClock hc
  · exact le_trans h.tickLeClock hc
  · rcases hlogs with hl | ⟨e, hl, he⟩
    · intro e' he'
      rw [hl] at he'
      exact h.noAnalysisPending e' he'
    · intro e' he'
      rw [hl] at he'
      rcases List.mem_append.mp he' with h' | h'
      · exact h.noAnalysisPending e' h'
      · rw [List.mem_singleton.mp h']
        exact he

/-- An accepted pointer move rewritten to an explicit record update. -/
theorem handleMouseMove_accept (s : HookState) (now x y : Int)
    (iw ih : Nat) (hc : MOUSE_THROTTLE ≤ now - s.lastMouseMoveTime) :
    handleMouseMove s now x y iw ih =
      { s with
        logs := s.logs ++
          [{ type := "mouse_move", data := .mouseMove x y,
             timestamp := now, windowWidth := some iw,
             windowHeight := some ih }],
        mousePositions := s.mousePositions ++ [⟨x, y, now⟩],
        lastMouseMoveTime := now,
        inactivityTimer := some (now + 3000) } := by
  simp [handleMouseMove, hc, logEvent]

/-- Every step of a well-timed run preserves the invariant. -/
theorem inv_gstep (g : GState) (i : Input) (hv : validInput g i = true)
    (h : Inv g) : Inv (gstep g i) := by
  cases i with
  | mouseMove now x y iw ih =>
      simp only [validInput, Input.time, Bool.and_eq_true,
        decide_eq_true_eq] at hv
      by_cases hc : MOUSE_THROTTLE ≤ now - g.s.lastMouseMoveTime
      · show Inv ⟨handleMouseMove g.s now x y iw ih, g.lastTick, now⟩
        rw [handleMouseMove_accept g.s now x y iw ih hc]
        have hc' : (500 : Int) ≤ now - g.s.lastMouseMoveTime := hc
        refine ⟨?_, ?_, Or.inr (by simp), ?_, ?_, ?_⟩
        · intro p hp
          rcases List.mem_append.mp hp with hp | hp
          · have := h.posLeLast p hp
            show p.timestamp ≤ now
            omega
          · rw [List.mem_singleton.mp hp]
        · refine List.pairwise_append.mpr
            ⟨h.posSorted, List.pairwise_singleton _ _, ?_⟩
          intro p hp q hq
          have hq' : q = ⟨x, y, now⟩ := List.mem_singleton.mp hq
          have := h.posLeLast p hp
          rw [hq']
          show p.timestamp < now
          omega
        · exact le_refl now
        · exact le_trans h.tickLeClock hv.1
        · intro e he
          rcases List.mem_append.mp he with he | he
          · exact h.noAnalysisPending e he
          · rw [List.mem_singleton.mp he]
            simp
      · exact inv_append g now _ (by simp [step, handleMouseMove, hc])
          (by simp [step, handleMouseMove, hc])
          (Or.inl (by simp [step, handleMouseMove, hc])) hv.1 h
  | keyDown now k iw ih =>
      simp only [validInput, Input.time, Bool.and_eq_true,
        decide_eq_true_eq] at hv
      exact inv_append g now _ rfl rfl
        (Or.inr ⟨_, rfl, by simp⟩) hv.1 h
  | copyEvt now sel iw ih =>
      simp only [validInput, Input.time, Bool.and_eq_true,
        decide_eq_true_eq] at hv
      exact inv_append g now _ rfl rfl
        (Or.inr ⟨_, rfl, by simp⟩) hv.1 h
  | pasteEvt now clip iw ih =>
      simp only [validInput, Input.time, Bool.and_eq_true,
        decide_eq_true_eq] at hv
      exact inv_append g now _ rfl rfl
        (Or.inr ⟨_, rfl, by simp⟩) hv.1 h
  | cutEvt now sel iw ih =>
      simp only [validInput, Input.time, Bool.and_eq_true,
        decide_eq_true_eq] at hv
      exact inv_append g now _ rfl rfl
        (Or.inr ⟨_, rfl, by simp⟩) hv.1 h
  | resizeEvt now iw ih sw =>
      simp only [validInput, Input.time, Bool.and_eq_true,
        decide_eq_true_eq] at hv
      by_cases hr : RESIZE_THROTTLE ≤ now - g.s.lastResizeTime
      · exact inv_append g now _
          (by simp [step, handleResize, hr, logEvent])
          (by simp [step, handleResize, hr, logEvent])
          (Or.inr ⟨{ type := "window_resize",
                     data := .windowResize iw ih ((iw : ℚ) / (sw : ℚ)),
                     timestamp := now, windowWidth := some iw,
                     windowHeight := some ih },
            by simp [step, handleResize, hr, logEvent], by simp⟩) hv.1 h
      · exact inv_append g now _ (by simp [step, handleResize, hr])
          (by simp [step, handleResize, hr])
          (Or.inl (by simp [step, handleResize, hr])) hv.1 h
  | visibilityEvt now hidden iw ih =>
      simp only [validInput, Input.time, Bool.and_eq_true,
        decide_eq_true_eq] at hv
      exact inv_append g now _ rfl rfl
        (Or.inr ⟨_, rfl, by simp⟩) hv.1 h
  | focusEvt now iw ih =>
      simp only [validInput, Input.time, Bool.and_eq_true,
        decide_eq_true_eq] at hv
      by_cases hf : g.s.isFocused
      · exact inv_append g now _ (by simp [step, handleFocus, hf])
          (by simp [step, handleFocus, hf])
          (Or.inl (by simp [step, handleFocus, hf])) hv.1 h
      · exact inv_append g now _
          (by simp [step, handleFocus, hf, logEvent])
          (by simp [step, handleFocus, hf, logEvent])
          (Or.inr ⟨{ type := "window_state_change",
                     data := .windowStateChange "focused",
                     timestamp := now, windowWidth := some iw,
                     windowHeight := some ih },
            by simp [step, handleFocus, hf, logEvent], by simp⟩) hv.1 h
  | blurEvt now iw ih =>
      simp only [validInput, Input.time, Bool.and_eq_true,
        decide_eq_true_eq] at hv
      by_cases hf : g.s.isFocused
      · exact inv_append g now _
          (by simp [step, handleBlur, hf, logEvent])
          (by simp [step, handleBlur, hf, logEvent])
          (Or.inr ⟨{ type := "window_state_change",
                     data := .windowStateChange "blurred",
                     timestamp := now, windowWidth := some iw,
                     windowHeight := some ih },
            by simp [step, handleBlur, hf, logEvent], by simp⟩) hv.1 h
      · exact inv_append g now _ (by simp [step, handleBlur, hf])
          (by simp [step, handleBlur, hf])
          (Or.inl (by simp [step, handleBlur, hf])) hv.1 h
  | timerFire now iw ih =>
      simp only [validInput, Input.time, Bool.and_eq_true,
        decide_eq_true_eq] at hv
      exact inv_append g now _ rfl rfl
        (Or.inr ⟨_, rfl, by simp⟩) hv.1 h
  | mountEvt now sw sh iw ih ua =>
      simp only [validInput, Input.time, Bool.and_eq_true,
        decide_eq_true_eq] at hv
      exact inv_append g now _ rfl rfl (Or.inl rfl) hv.1 h
  | tickEvt now iw ih =>
      simp only [validInput, Input.time, Bool.and_eq_true,
        decide_eq_true_eq] at hv
      show Inv ⟨tick g.s now iw ih, now, now⟩
      by_cases hl : g.s.logs = []
      · rw [tick_empty g.s now iw ih hl]
        refine ⟨h.posLeLast, h.posSorted, Or.inl ?_,
          le_trans h.lastLeClock hv.1, le_refl now, h.noAnalysisPending⟩
        rcases h.posOldOrPending with h3 | h3
        · intro p hp
          show p.timestamp ≤ now
          have := h3 p hp
          have := h.tickLeClock
          have := hv.1
          omega
        · exact absurd hl h3
      · rw [tick_eq g.s now iw ih hl]
        refine ⟨?_, ?_, Or.inl ?_, le_trans h.lastLeClock hv.1,
          le_refl now, ?_⟩
        · intro p hp
          exact h.posLeLast p (List.mem_filter.mp hp).1
        · exact h.posSorted.sublist (List.filter_sublist _)
        · intro p hp
          show p.timestamp ≤ now
          have h1 := h.posLeLast p (List.mem_filter.mp hp).1
          have h4 := h.lastLeClock
          have h5 := hv.1
          omega
        · intro e he
          exact absurd he (List.not_mem_nil e)

/-- The invariant holds after any well-timed run from the initial state. -/
theorem inv_validSeq (is : List Input) (g : GState)
    (hv : validSeq g is = true) (h : Inv g) : Inv (grun g is) := by
  induction is generalizing g with
  | nil => exact h
  | cons i is ih =>
      rw [validSeq, Bool.and_eq_true] at hv
      exact ih (gstep g i) hv.2 (inv_gstep g i hv.1 h)

/-- Reachability: at a well-timed tick, two retained samples inside the
trailing window force a non-empty pending log — samples older than the last
tick can contribute at most one boundary sample to the window, and any
newer sample entered together with its still-pending mouse_move record. -/
theorem logs_ne_of_two_recent (g : GState) (now : Int) (iw ih : Nat)
    (h : Inv g) (hv : validInput g (Input.tickEvt now iw ih) = true)
    (h2 : 2 ≤ (recentPositions g.s.mousePositions (now - 5000)).length) :
    g.s.logs ≠ [] := by
  rcases h.posOldOrPending with h3 | h3
  · exfalso
    simp only [validInput, Input.time, Bool.and_eq_true,
      decide_eq_true_eq] at hv
    have hpw : (recentPositions g.s.mousePositions (now - 5000)).Pairwise
        (fun p q => p.timestamp < q.timestamp) :=
      h.posSorted.sublist (List.filter_sublist _)
    rcases hrec : recentPositions g.s.mousePositions (now - 5000) with
      _ | ⟨a, _ | ⟨b, rest⟩⟩
    · rw [hrec] at h2
      simp at h2
    · rw [hrec] at h2
      simp at h2
    · have ha : a ∈ recentPositions g.s.mousePositions (now - 5000) := by
        rw [hrec]
        exact List.mem_cons_self a _
      have hb : b ∈ recentPositions g.s.mousePositions (now - 5000) := by
        rw [hrec]
        exact List.mem_cons_of_mem a (List.mem_cons_self b rest)
      have hab : a.timestamp < b.timestamp := by
        rw [hrec] at hpw
        exact (List.pairwise_cons.mp hpw).1 b (List.mem_cons_self b rest)
      have haf := List.mem_filter.mp ha
      have hbf := List.mem_filter.mp hb
      have ha2 := h3 a haf.1
      have hb2 := h3 b hbf.1
      have ha3 : now - 5000 ≤ a.timestamp := by simpa using haf.2
      have hb3 : now - 5000 ≤ b.timestamp := by simpa using hbf.2
      have hgap := hv.2
      omega
  · exact h3

/-- The squared distance the analyzer compares on a tick at time now:
between S2, the first retained sample with timestamp at least
windowStart + 2000 (falling back to the earliest retained sample), and S5,
the most recently retained sample. -/
def analyzerDistanceSq (s : HookState) (now : Int) : ℚ :=
  distanceSq
    (second2Sample (recentPositions s.mousePositions (now - 5000))
      (now - 5000))
    ((recentPositions s.mousePositions (now - 5000)).getLastD ⟨0, 0, 0⟩)

/-- The mouse_analysis record a tick at time now logs, spelled out. -/
def analyzerRecordAt (s : HookState) (now : Int) (iw ih : Nat) : EventData :=
  { type := "mouse_analysis",
    data := EventPayload.mouseAnalysis (analyzerDistanceSq s now)
      (decide (analyzerDistanceSq s now <
        getNormalizedThresholdSq s.deviceInfo)),
    timestamp := now, windowWidth := some iw, windowHeight := some ih }

theorem distanceSq_nonneg (p q : PointerSample) : 0 ≤ distanceSq p q := by
  unfold distanceSq
  positivity

theorem sqrt_lt_sqrt_iff_rat (a b : ℚ) (ha : 0 ≤ a) :
    Real.sqrt (a : ℝ) < Real.sqrt (b : ℝ) ↔ a < b := by
  rw [Real.sqrt_lt_sqrt_iff (by exact_mod_cast ha)]
  constructor <;> intro h <;> exact_mod_cast h

/-- The embedded comparison of squared quantities agrees with the source
comparison of the square roots: the minimalMovement flag is true exactly
when the Euclidean distance is below 0.5 percent of the screen diagonal,
or below the fallback constant 10 when device metrics are unavailable. -/
theorem minimal_flag_iff (dev : Option DeviceInfo) (q : ℚ) (hq : 0 ≤ q) :
    (decide (q < getNormalizedThresholdSq dev) = true) ↔
      Real.sqrt (q : ℝ) <
        (match dev with
         | some d => (0.005 : ℝ) *
             Real.sqrt ((d.screenWidth : ℝ) ^ 2 + (d.screenHeight : ℝ) ^ 2)
         | none => (10 : ℝ)) := by
  rw [decide_eq_true_iff]
  cases dev with
  | none =>
      show q < getNormalizedThresholdSq none ↔ Real.sqrt (q : ℝ) < 10
      rw [← sqrt_lt_sqrt_iff_rat q (getNormalizedThresholdSq none) hq]
      have h10 : Real.sqrt ((getNormalizedThresholdSq none : ℚ) : ℝ) = 10 := by
        show Real.sqrt ((100 : ℚ) : ℝ) = 10
        rw [show ((100 : ℚ) : ℝ) = (10 : ℝ) ^ 2 by norm_num,
          Real.sqrt_sq (by norm_num)]
      rw [h10]
  | some d =>
      show q < getNormalizedThresholdSq (some d) ↔
        Real.sqrt (q : ℝ) < (0.005 : ℝ) *
          Real.sqrt ((d.screenWidth : ℝ) ^ 2 + (d.screenHeight : ℝ) ^ 2)
      rw [← sqrt_lt_sqrt_iff_rat q (getNormalizedThresholdSq (some d)) hq]
      have hT : Real.sqrt ((getNormalizedThresholdSq (some d) : ℚ) : ℝ) =
          (0.005 : ℝ) *
            Real.sqrt ((d.screenWidth : ℝ) ^ 2 + (d.screenHeight : ℝ) ^ 2) := by
        have hcast : ((getNormalizedThresholdSq (some d) : ℚ) : ℝ) =
            ((d.screenWidth : ℝ) ^ 2 + (d.screenHeight : ℝ) ^ 2) / 40000 := by
          show ((((d.screenWidth : ℚ) ^ 2 + (d.screenHeight : ℚ) ^ 2) /
              40000 : ℚ) : ℝ) = _
          push_cast
          ring
        rw [hcast, Real.sqrt_div (by positivity),
          show Real.sqrt (40000 : ℝ) = 200 by
            rw [show (40000 : ℝ) = (200 : ℝ) ^ 2 by norm_num,
              Real.sqrt_sq (by norm_num)],
          show (0.005 : ℝ) = 1 / 200 by norm_num]
        ring
      rw [hT]

/-- Enrichment preserves the type field, so filtering a batch by record
type commutes with it. -/
theorem filter_type_map_enrich (dev : Option DeviceInfo) (c : String)
    (L : List EventData) :
    (L.map (enrich dev)).filter (fun e => e.type == c) =
      (L.filter (fun e => e.type == c)).map (enrich dev) := by
  rw [List.filter_map]
  congr 1

/-- With a non-empty pending log free of analyzer records and at least two
retained samples in the window, the tick emits exactly one mouse_analysis
record — the one of analyzerRecordAt — and the published batch contains
exactly one record of that type. -/
theorem analyzer_emits (s : HookState) (now : Int) (iw ih : Nat)
    (hne : s.logs ≠ [])
    (hno : ∀ e ∈ s.logs, e.type ≠ "mouse_analysis")
    (h2 : 2 ≤ (recentPositions s.mousePositions (now - 5000)).length) :
    (tickEmissions s now iw ih).filter
      (fun e => e.type == "mouse_analysis") =
        [analyzerRecordAt s now iw ih] ∧
    ((tick s now iw ih).throttledLogs.filter
      (fun e => e.type == "mouse_analysis")).length = 1 := by
  have hA : analysisRecord s now iw ih = some (analyzerRecordAt s now iw ih) := by
    simp only [analysisRecord, if_pos h2]
    rfl
  have hfil : (tickEmissions s now iw ih).filter
      (fun e => e.type == "mouse_analysis") =
        [analyzerRecordAt s now iw ih] := by
    unfold tickEmissions
    rw [if_neg hne, hA]
    simp [focusRecord, analyzerRecordAt]
  refine ⟨hfil, ?_⟩
  have hnil : s.logs.filter (fun e => e.type == "mouse_analysis") = [] :=
    List.filter_eq_nil_iff.mpr (fun a ha => by simp [hno a ha])
  rw [tick_eq s now iw ih hne]
  show (((s.logs ++ tickEmissions s now iw ih).map
      (enrich s.deviceInfo)).filter
      (fun e => e.type == "mouse_analysis")).length = 1
  rw [filter_type_map_enrich, List.filter_append, hnil, hfil]
  simp

/-- With fewer than two retained samples in the window the tick emits no
mouse_analysis record at all. -/
theorem analyzer_skips (s : HookState) (now : Int) (iw ih : Nat)
    (h2 : (recentPositions s.mousePositions (now - 5000)).length < 2) :
    (tickEmissions s now iw ih).filter
      (fun e => e.type == "mouse_analysis") = [] := by
  by_cases hl : s.logs = []
  · simp [tickEmissions, hl]
  · have hcond : ¬ 2 ≤ (recentPositions s.mousePositions
        (now - 5000)).length := by omega
    have hA : analysisRecord s now iw ih = none := by
      simp only [analysisRecord, if_neg hcond]
    unfold tickEmissions
    rw [if_neg hl, hA]
    simp [focusRecord]

/-- C2: over any well-timed run, a tick with at least two retained samples
in the trailing 5000 ms window emits exactly one mouse_analysis record; its
payload compares the squared distance between S2 (the first retained sample
with timestamp at least windowStart + 2000, or the earliest retained one)
and S5 (the most recently retained sample) against the squared threshold,
and the minimalMovement flag is true exactly when the Euclidean distance is
below 0.005 times the screen diagonal (10 when device metrics are
unavailable).  The published batch then holds exactly one such record.  A
tick with fewer than two retained samples emits none. -/
theorem C2_window_analyzer (is : List Input) (now : Int) (iw ih : Nat)
    (hv : validSeq ginit is = true)
    (ht : validInput (grun ginit is) (Input.tickEvt now iw ih) = true) :
    (2 ≤ (recentPositions (grun ginit is).s.mousePositions
        (now - 5000)).length →
      (tickEmissions (grun ginit is).s now iw ih).filter
          (fun e => e.type == "mouse_analysis") =
        [analyzerRecordAt (grun ginit is).s now iw ih] ∧
      ((tick (grun ginit is).s now iw ih).throttledLogs.filter
          (fun e => e.type == "mouse_analysis")).length = 1 ∧
      ((decide (analyzerDistanceSq (grun ginit is).s now <
          getNormalizedThresholdSq (grun ginit is).s.deviceInfo) = true) ↔
        Real.sqrt ((analyzerDistanceSq (grun ginit is).s now : ℚ) : ℝ) <
          (match (grun ginit is).s.deviceInfo with
           | some d => (0.005 : ℝ) *
               Real.sqrt ((d.screenWidth : ℝ) ^ 2 +
                 (d.screenHeight : ℝ) ^ 2)
           | none => (10 : ℝ)))) ∧
    ((recentPositions (grun ginit is).s.mousePositions
        (now - 5000)).length < 2 →
      (tickEmissions (grun ginit is).s now iw ih).filter
        (fun e => e.type == "mouse_analysis") = []) := by
  have hInv := inv_validSeq is ginit hv Inv.init
  constructor
  · intro h2
    have hne := logs_ne_of_two_recent (grun ginit is) now iw ih hInv ht h2
    have hem := analyzer_emits (grun ginit is).s now iw ih hne
      hInv.noAnalysisPending h2
    exact ⟨hem.1, hem.2,
      minimal_flag_iff (grun ginit is).s.deviceInfo _
        (distanceSq_nonneg _ _)⟩
  · intro h2
    exact analyzer_skips (grun ginit is).s now iw ih h2

/-- Witness for C2: a mounted session with accepted moves at 1000 and 1600
followed by the first tick at 5000 emits exactly the one analyzer record. -/
theorem C2_window_analyzer_witness :
    (tickEmissions (grun ginit
        [Input.mountEvt 0 1000 800 640 480 "Mozilla",
         Input.mouseMove 1000 0 0 8 6,
         Input.mouseMove 1600 30 40 8 6]).s 5000 8 6).filter
        (fun e => e.type == "mouse_analysis") =
      [analyzerRecordAt (grun ginit
        [Input.mountEvt 0 1000 800 640 480 "Mozilla",
         Input.mouseMove 1000 0 0 8 6,
         Input.mouseMove 1600 30 40 8 6]).s 5000 8 6] :=
  ((C2_window_analyzer
      [Input.mountEvt 0 1000 800 640 480 "Mozilla",
       Input.mouseMove 1000 0 0 8 6,
       Input.mouseMove 1600 30 40 8 6] 5000 8 6
      (by decide) (by decide)).1 (by decide)).1

end Proctoring
